import Mathlib

/-!
Verification of the CAN-data-analyzer (`src/data_parser.py`) against its
natural-language specification.

The Python source is shallowly embedded below:
  * timestamps (Python floats) are modelled as exact rationals `ℚ`;
  * machine integers (raw CAN identifiers) are `Nat`, with bitwise operators;
  * the ODS ingestion collaborator is abstracted to a list of `Row`s, each
    carrying the paragraph texts of its cells in document order;
  * exceptions that propagate to the caller are modelled with `Except`.
-/

/-- One table row of the capture/reference document: the texts of its
`table-cell/text:p` paragraphs, in document order.  A row with no extractable
cell has `cells = []`. -/
structure Row where
  cells : List String
deriving DecidableEq

/-- Decidable equality for `Except`, used to evaluate loader results on
concrete captures. -/
instance {e a : Type} [DecidableEq e] [DecidableEq a] : DecidableEq (Except e a) := fun x y => by
  cases x <;> cases y
  case error.error u v =>
    exact if h : u = v then isTrue (by rw [h]) else isFalse (by simp [h])
  case error.ok u v => exact isFalse (by simp)
  case ok.error u v => exact isFalse (by simp)
  case ok.ok u v =>
    exact if h : u = v then isTrue (by rw [h]) else isFalse (by simp [h])

/-- Split a character list at every occurrence of `sep`, keeping empty
pieces — the semantics of Python `str.split` with a one-character
separator. -/
def splitOnChar (sep : Char) : List Char → List (List Char)
  | [] => [[]]
  | c :: cs =>
    match splitOnChar sep cs with
    | [] => [[]]
    | piece :: rest =>
      if c = sep then [] :: piece :: rest else (c :: piece) :: rest

/-- Value of a decimal digit character. -/
def decDigitVal (c : Char) : Nat := c.toNat - 48

/-- Accumulate the value of a decimal digit string. -/
def decVal (cs : List Char) : Nat := List.foldl (fun a c => 10 * a + decDigitVal c) 0 cs

/-- Modelled from the library collaborator: Python `float(s)` restricted to
plain decimal literals — optional sign, decimal digits, optional fractional
part (the only shapes a capture timestamp field can take).  `none` models the
`ValueError` raised on any other string. -/
def pyFloat? (s : String) : Option ℚ :=
  let signed : Bool × List Char :=
    match s.toList with
    | '-' :: rest => (true, rest)
    | '+' :: rest => (false, rest)
    | cs => (false, cs)
  let q? : Option ℚ :=
    match splitOnChar '.' signed.2 with
    | [ip] =>
        if ip.length > 0 && ip.all Char.isDigit then
          some ((decVal ip : Nat) : ℚ)
        else none
    | [ip, fp] =>
        if (ip.length > 0 || fp.length > 0)
            && ip.all Char.isDigit && fp.all Char.isDigit then
          some (((decVal ip : Nat) : ℚ)
            + ((decVal fp : Nat) : ℚ) / (10 : ℚ) ^ fp.length)
        else none
    | _ => none
  q?.map (fun q => if signed.1 then -q else q)

/-- Value of a hexadecimal digit character, `none` for a non-hex character. -/
def hexDigitVal? (c : Char) : Option Nat :=
  if c.isDigit then some (c.toNat - 48)
  else if 'a' ≤ c ∧ c ≤ 'f' then some (c.toNat - 87)
  else if 'A' ≤ c ∧ c ≤ 'F' then some (c.toNat - 55)
  else none

/-- Accumulate the value of a hex digit string, `none` on a non-hex char. -/
def hexValAux : Nat → List Char → Option Nat
  | acc, [] => some acc
  | acc, c :: cs =>
    match hexDigitVal? c with
    | none => none
    | some d => hexValAux (16 * acc + d) cs

/-- Modelled from the library collaborator: Python `int(s, 16)` restricted to
unsigned hexadecimal literals (optionally `0x`/`0X`-prefixed), the only shapes
an identifier field can take.  `none` models the `ValueError` raised on any
other string. -/
def pyHexInt? (s : String) : Option Nat :=
  let body : List Char :=
    match s.toList with
    | '0' :: 'x' :: rest => rest
    | '0' :: 'X' :: rest => rest
    | cs => cs
  match body with
  | [] => none
  | cs => hexValAux 0 cs

/-- Parse the first cell text of a capture row (`src/data_parser.py`
lines 29–31): split on `";"`, field index 1 is the timestamp, field index 5
the hexadecimal identifier.  `none` models the `IndexError`/`ValueError`
raised by the Python code on too few fields or unparseable fields. -/
def parse_cell (value : String) : Option (ℚ × Nat) :=
  let split_values := (splitOnChar ';' value.toList).map List.asString
  match split_values[1]? with
  | none => none
  | some tfield =>
    match pyFloat? tfield with
    | none => none
    | some time_ms =>
      match split_values[5]? with
      | none => none
      | some ifield =>
        match pyHexInt? ifield with
        | none => none
        | some id_hex => some (time_ms, id_hex)

/-- The row-scanning loop of `parse_ods_file` (lines 25–34): rows with no
extractable cell are skipped; a present first cell is parsed, appending the
timestamp and the identifier to two lists in lockstep; a parse failure aborts
the whole run with an error. -/
def process_rows : List Row → Except String (List ℚ × List Nat)
  | [] => Except.ok ([], [])
  | row :: rest =>
    match row.cells with
    | [] => process_rows rest
    | value :: _ =>
      match parse_cell value with
      | none => Except.error "FormatError"
      | some (time_ms, id_hex) =>
        match process_rows rest with
        | Except.error e => Except.error e
        | Except.ok (time_values, id_values) =>
          Except.ok (time_ms :: time_values, id_hex :: id_values)

/-- `parse_ods_file` (lines 9–36): the XPath
`table-row[position() > 25 and position() <= 25+num_rows]` keeps, in document
order, the rows at 1-indexed positions `26 .. 25+num_rows`, i.e.
`(rows.drop 25).take num_rows`; each kept row is then processed. -/
def parse_ods_file (rows : List Row) (num_rows : Nat) :
    Except String (List ℚ × List Nat) :=
  process_rows ((rows.drop 25).take num_rows)

/-- Spec-level record sequence for the same scan: one `(timestamp, raw_id)`
pair per qualifying row, in document order.  Used to state that the two lists
returned by `parse_ods_file` are index-aligned. -/
def records_spec : List Row → Except String (List (ℚ × Nat))
  | [] => Except.ok []
  | row :: rest =>
    match row.cells with
    | [] => records_spec rest
    | value :: _ =>
      match parse_cell value with
      | none => Except.error "FormatError"
      | some r =>
        match records_spec rest with
        | Except.error e => Except.error e
        | Except.ok recs => Except.ok (r :: recs)

/-- `get_pgn` (lines 62–81): the four-way branch on the PDU-format
discriminant, each branch transcribed exactly as in the source. -/
def get_pgn (msg_id : Nat) : Nat :=
  let pdu_format := (msg_id >>> 16) &&& 0x3
  let pdu_specific := (msg_id >>> 8) &&& 0xFF
  if pdu_format = 0 then
    (pdu_specific <<< 8) ||| ((msg_id >>> 16) &&& 0xFF)
  else if pdu_format = 1 then
    (pdu_specific <<< 8) ||| ((msg_id >>> 16) &&& 0xFF)
  else if pdu_format = 2 then
    (pdu_specific <<< 8) ||| ((msg_id >>> 16) &&& 0xFF)
  else
    (pdu_specific <<< 8) ||| ((msg_id >>> 16) &&& 0xFF)

/-- `extract_pgn` (lines 84–86): bits 8–23 of the extended identifier. -/
def extract_pgn (extended_id : Nat) : Nat := (extended_id >>> 8) &&& 0xFFFF

/-- The single uniform formula the four `get_pgn` branches each compute,
written out once (spec-side definition for the equivalence claim). -/
def get_pgn_uniform (msg_id : Nat) : Nat :=
  (((msg_id >>> 8) &&& 0xFF) <<< 8) ||| ((msg_id >>> 16) &&& 0xFF)

/-- `get_can_id` (lines 89–91): masks the extended identifier to its low
29 bits (the standard identifier). -/
def get_can_id (id_hex : Nat) : Nat := id_hex &&& 0x1FFFFFFF

/-- The per-identifier timestamp filter of `plot_data` (lines 109–110):
timestamps of the records whose identifier equals `unique_id`, in capture
order. -/
def filtered_time_values (time_values : List ℚ) (id_values : List Nat)
    (unique_id : Nat) : List ℚ :=
  ((id_values.zip time_values).filter (fun p => p.1 == unique_id)).map Prod.snd

/-- Consecutive differences `t[i] - t[i-1]` (lines 112–113). -/
def cycle_times : List ℚ → List ℚ
  | t0 :: t1 :: rest => (t1 - t0) :: cycle_times (t1 :: rest)
  | _ => []

/-- Insert into an ascending list. -/
def insertAsc (x : ℚ) : List ℚ → List ℚ
  | [] => [x]
  | y :: ys => if x ≤ y then x :: y :: ys else y :: insertAsc x ys

/-- Ascending insertion sort. -/
def sortAsc : List ℚ → List ℚ
  | [] => []
  | x :: xs => insertAsc x (sortAsc xs)

/-- Modelled from the library collaborator: `np.median` sorts ascending and
takes the middle element (odd length) or the average of the two middle
elements (even length). -/
def median (l : List ℚ) : ℚ :=
  let s := sortAsc l
  let n := s.length
  if n % 2 = 1 then s.getD (n / 2) 0
  else (s.getD (n / 2 - 1) 0 + s.getD (n / 2) 0) / 2

/-- The two classification outcomes of `plot_data`: membership of
`category_A` (with the exceedance count) or of `category_B`. -/
inductive ClassificationOutcome where
  | Flagged (count : Nat)
  | Clean
deriving DecidableEq

/-- The default of the `threshold_percentage` parameter of `plot_data`. -/
def default_threshold_percentage : ℚ := 5

/-- The classification body of `plot_data` (lines 115–125) for one
identifier: threshold from the median of the cycle times, strict exceedance
count, `Flagged`/`Clean`; `none` when the cycle-time sequence is empty (the
`len(cycle_times) > 0` guard fails and neither category is touched). -/
def classify_id (time_values : List ℚ) (id_values : List Nat)
    (threshold_percentage : ℚ) (unique_id : Nat) : Option ClassificationOutcome :=
  let ftv := filtered_time_values time_values id_values unique_id
  let cts := cycle_times ftv
  if cts.length > 0 then
    let median_cycle_time := median cts
    let threshold := median_cycle_time * (1 + threshold_percentage / 100)
    let exceeded_count := cts.countP (fun c => decide (c > threshold))
    if exceeded_count > 0 then some (ClassificationOutcome.Flagged exceeded_count)
    else some ClassificationOutcome.Clean
  else none

/-- The whole per-identifier pass of `plot_data`'s loop (lines 100–125):
the range guard `0x800 > unique_id >= 0`, the reference-set exclusion on the
masked identifier, then classification.  `none` means the identifier reaches
neither category. -/
def analysis_outcome (time_values : List ℚ) (id_values : List Nat)
    (pgn_values : Finset Nat) (threshold_percentage : ℚ) (unique_id : Nat) :
    Option ClassificationOutcome :=
  if 0x800 > unique_id ∧ unique_id ≥ 0 then
    if get_can_id unique_id ∈ pgn_values then none
    else classify_id time_values id_values threshold_percentage unique_id
  else none

/-- Whether an outcome is `Flagged`. -/
def isFlagged : Option ClassificationOutcome → Bool
  | some (ClassificationOutcome.Flagged _) => true
  | _ => false

/-- Whether an outcome is `Clean`. -/
def isClean : Option ClassificationOutcome → Bool
  | some ClassificationOutcome.Clean => true
  | _ => false

/-- The observed identifiers whose loop pass ends in `category_A`. -/
def flagged_ids (time_values : List ℚ) (id_values : List Nat)
    (pgn_values : Finset Nat) (threshold_percentage : ℚ) : Finset Nat :=
  id_values.toFinset.filter
    (fun id =>
      isFlagged (analysis_outcome time_values id_values pgn_values threshold_percentage id) = true)

/-- The observed identifiers whose loop pass ends in `category_B`. -/
def clean_ids (time_values : List ℚ) (id_values : List Nat)
    (pgn_values : Finset Nat) (threshold_percentage : ℚ) : Finset Nat :=
  id_values.toFinset.filter
    (fun id =>
      isClean (analysis_outcome time_values id_values pgn_values threshold_percentage id) = true)

/-- The keys of `category_A` (line 123): masked identifiers of the flagged
identifiers (`hex` being injective, keys are modelled by the numbers). -/
def categoryA_keys (time_values : List ℚ) (id_values : List Nat)
    (pgn_values : Finset Nat) (threshold_percentage : ℚ) : Finset Nat :=
  (flagged_ids time_values id_values pgn_values threshold_percentage).image get_can_id

/-- The keys of `category_B` (line 125). -/
def categoryB_keys (time_values : List ℚ) (id_values : List Nat)
    (pgn_values : Finset Nat) (threshold_percentage : ℚ) : Finset Nat :=
  (clean_ids time_values id_values pgn_values threshold_percentage).image get_can_id

/-- The identifiers written to `category_A.txt` (lines 138–141): the keys of
`category_A` that pass the final `0x800 > id >= 0` guard again. -/
def categoryA_file (time_values : List ℚ) (id_values : List Nat)
    (pgn_values : Finset Nat) (threshold_percentage : ℚ) : Finset Nat :=
  (categoryA_keys time_values id_values pgn_values threshold_percentage).filter
    (fun k => 0x800 > k ∧ k ≥ 0)

/-- The identifiers written to `category_B.txt` (lines 143–146). -/
def categoryB_file (time_values : List ℚ) (id_values : List Nat)
    (pgn_values : Finset Nat) (threshold_percentage : ℚ) : Finset Nat :=
  (categoryB_keys time_values id_values pgn_values threshold_percentage).filter
    (fun k => 0x800 > k ∧ k ≥ 0)

/-- Spec-side eligible-identifier set: observed identifiers surviving the
range check and the reference-set exclusion (spec §4.3 / glossary). -/
def eligible_ids (id_values : List Nat) (pgn_values : Finset Nat) : Finset Nat :=
  id_values.toFinset.filter
    (fun id => 0x800 > id ∧ id ≥ 0 ∧ get_can_id id ∉ pgn_values)

example : pyFloat? "100" = some 100 := by decide
example : pyFloat? "10.5" = some (21/2 : ℚ) := by
  have h1 : decVal ['1', '0'] = 10 := by decide
  have h2 : decVal ['5'] = 5 := by decide
  simp +decide [pyFloat?, splitOnChar, h1, h2]
  norm_num
example : pyFloat? "abc" = none := by decide
example : pyHexInt? "1A" = some 26 := by decide
example : pyHexInt? "zz" = none := by decide
example : parse_cell "a;100;b;c;d;123" = some (100, 0x123) := by decide
example : parse_cell "a;100" = none := by decide
example : median [100, 105, 95] = 100 := by decide
example : median [100, 160, 40] = 100 := by decide
example : median [1, 2, 3, 4] = (5/2 : ℚ) := by
  norm_num [median, sortAsc, insertAsc]
example :
    classify_id [0, 100, 205, 300] [0x123, 0x123, 0x123, 0x123] 5 0x123
      = some ClassificationOutcome.Clean := by
  norm_num [classify_id, filtered_time_values, cycle_times, median, sortAsc,
    insertAsc, List.countP, List.countP.go]
example :
    classify_id [0, 100, 260, 300] [0x123, 0x123, 0x123, 0x123] 5 0x123
      = some (ClassificationOutcome.Flagged 1) := by
  norm_num [classify_id, filtered_time_values, cycle_times, median, sortAsc,
    insertAsc, List.countP, List.countP.go]
example : get_pgn 0x100 = 0x100 := by decide
example : extract_pgn 0x100 = 0x1 := by decide

/-! ## Helper lemmas -/

/-- Masking with the low-29-bit mask is the identity below `0x800`. -/
theorem get_can_id_of_lt {id : Nat} (h : id < 0x800) : get_can_id id = id := by
  have h29 : id < 2 ^ 29 := lt_of_lt_of_le h (by norm_num)
  have := Nat.and_pow_two_sub_one_of_lt_two_pow h29
  simpa [get_can_id] using this

/-- The four branches of `get_pgn` all compute the uniform formula. -/
theorem get_pgn_eq_uniform (msg_id : Nat) : get_pgn msg_id = get_pgn_uniform msg_id := by
  simp only [get_pgn, get_pgn_uniform]
  split
  · rfl
  · split
    · rfl
    · split <;> rfl

/-! ## Claim theorems -/

/-- C9: for every identifier that passes the eligibility range filter
(`0 ≤ id < 0x800`), the mask `get_can_id` is the identity, so every outcome
key equals the raw identifier and two distinct eligible identifiers can never
collide on the same masked key. -/
theorem mask_identity_on_range_filtered (a b : Nat) (ha : a < 0x800) (hb : b < 0x800) :
    get_can_id a = a ∧ (get_can_id a = get_can_id b → a = b) := by
  refine ⟨get_can_id_of_lt ha, fun h => ?_⟩
  rw [get_can_id_of_lt ha, get_can_id_of_lt hb] at h
  exact h

/-- Witness for C9 at `a = 0x123`, `b = 0x456`. -/
theorem mask_identity_on_range_filtered_witness :
    0x123 < 0x800 ∧ 0x456 < 0x800
    ∧ (get_can_id 0x123 = 0x123
        ∧ (get_can_id 0x123 = get_can_id 0x456 → 0x123 = 0x456)) :=
  ⟨by decide, by decide,
    mask_identity_on_range_filtered 0x123 0x456 (by decide) (by decide)⟩

/-- C3 counterexample: at `raw_id = 0x100` the branch computation `get_pgn`
and the uniform bit extraction `extract_pgn` give different values
(`0x100` versus `0x1`), so the claimed equality of the two fails. -/
theorem get_pgn_ne_extract_pgn_at_0x100 :
    get_pgn 0x100 = 0x100 ∧ extract_pgn 0x100 = 0x1
    ∧ get_pgn 0x100 ≠ extract_pgn 0x100 := by
  refine ⟨by decide, by decide, by decide⟩

/-- C3 (amended): all four PDU-format branches of `get_pgn` compute one and
the same value, namely `((raw_id >>> 8) &&& 0xFF) <<< 8 ||| ((raw_id >>> 16) &&& 0xFF)`;
this uniform value agrees with `extract_pgn raw_id = (raw_id >>> 8) &&& 0xFFFF`
exactly when bits 8–15 of `raw_id` equal its bits 16–23, and not in general. -/
theorem get_pgn_branches_uniform (msg_id : Nat) :
    get_pgn msg_id = get_pgn_uniform msg_id
    ∧ (get_pgn msg_id = extract_pgn msg_id ↔
        (msg_id >>> 8) &&& 0xFF = (msg_id >>> 16) &&& 0xFF) := by
  have huni := get_pgn_eq_uniform msg_id
  refine ⟨huni, ?_⟩
  rw [huni]
  have h16 : msg_id >>> 16 = (msg_id >>> 8) >>> 8 := by
    rw [← Nat.shiftRight_add]
  have hdiv : (msg_id >>> 8) >>> 8 = (msg_id >>> 8) / 256 := by
    rw [Nat.shiftRight_eq_div_pow]
  have ha : (msg_id >>> 8) &&& 0xFF = (msg_id >>> 8) % 256 := by
    have := Nat.and_pow_two_sub_one_eq_mod (msg_id >>> 8) 8
    norm_num at this
    exact this
  have hb : ((msg_id >>> 8) / 256) &&& 0xFF = ((msg_id >>> 8) / 256) % 256 := by
    have := Nat.and_pow_two_sub_one_eq_mod ((msg_id >>> 8) / 256) 8
    norm_num at this
    exact this
  have hex : extract_pgn msg_id = (msg_id >>> 8) % 65536 := by
    have := Nat.and_pow_two_sub_one_eq_mod (msg_id >>> 8) 16
    norm_num at this
    simpa [extract_pgn] using this
  have hor : get_pgn_uniform msg_id
      = 256 * ((msg_id >>> 8) % 256) + ((msg_id >>> 8) / 256) % 256 := by
    have hblt : ((msg_id >>> 8) / 256) % 256 < 2 ^ 8 := by
      have h256 : (2 : Nat) ^ 8 = 256 := by norm_num
      omega
    rw [get_pgn_uniform, h16, hdiv, ha, hb, Nat.shiftLeft_eq,
      Nat.mul_comm ((msg_id >>> 8) % 256) (2 ^ 8),
      ← Nat.mul_add_lt_is_or hblt ((msg_id >>> 8) % 256)]
  rw [hor, hex, h16, hdiv, ha, hb]
  omega

/-- C4: an observed identifier whose raw value is not below `0x800`, or whose
masked standard identifier is in the reference set, gets no classification
outcome and appears in neither category, regardless of its cycle-time
pattern. -/
theorem excluded_id_reaches_no_category (time_values : List ℚ) (id_values : List Nat)
    (pgn_values : Finset Nat) (p : ℚ) (id : Nat)
    (h : ¬ id < 0x800 ∨ get_can_id id ∈ pgn_values) :
    analysis_outcome time_values id_values pgn_values p id = none
    ∧ id ∉ flagged_ids time_values id_values pgn_values p
    ∧ id ∉ clean_ids time_values id_values pgn_values p := by
  have hnone : analysis_outcome time_values id_values pgn_values p id = none := by
    unfold analysis_outcome
    rcases h with h | h
    · rw [if_neg]
      intro hc
      exact h hc.1
    · by_cases hr : 0x800 > id ∧ id ≥ 0
      · rw [if_pos hr, if_pos h]
      · rw [if_neg hr]
  refine ⟨hnone, ?_, ?_⟩
  · intro hmem
    rw [flagged_ids, Finset.mem_filter] at hmem
    rw [hnone] at hmem
    simp [isFlagged] at hmem
  · intro hmem
    rw [clean_ids, Finset.mem_filter] at hmem
    rw [hnone] at hmem
    simp [isClean] at hmem

/-- Witness for C4 at `id = 0x900` observed twice with a regular cadence. -/
theorem excluded_id_reaches_no_category_witness :
    (¬ 0x900 < 0x800 ∨ get_can_id 0x900 ∈ (∅ : Finset Nat))
    ∧ (analysis_outcome [0, 100, 200] [0x900, 0x900, 0x900] ∅ 5 0x900 = none
        ∧ 0x900 ∉ flagged_ids [0, 100, 200] [0x900, 0x900, 0x900] ∅ 5
        ∧ 0x900 ∉ clean_ids [0, 100, 200] [0x900, 0x900, 0x900] ∅ 5) :=
  ⟨Or.inl (by decide),
    excluded_id_reaches_no_category [0, 100, 200] [0x900, 0x900, 0x900] ∅ 5 0x900
      (Or.inl (by decide))⟩

/-- C5: with only identifier `0x123` at timestamps `[0, 100, 205, 300]` the
cycle times are `[100, 105, 95]`, the median `100`, and (threshold `105` at
the default percentage 5) classification yields `Clean`; at timestamps
`[0, 100, 260, 300]` the cycle times are `[100, 160, 40]` and classification
yields `Flagged(1)`, only `160` exceeding. -/
theorem concrete_capture_classification :
    cycle_times (filtered_time_values [0, 100, 205, 300]
        [0x123, 0x123, 0x123, 0x123] 0x123) = [100, 105, 95]
    ∧ median [100, 105, 95] = 100
    ∧ analysis_outcome [0, 100, 205, 300] [0x123, 0x123, 0x123, 0x123] ∅
        default_threshold_percentage 0x123 = some ClassificationOutcome.Clean
    ∧ cycle_times (filtered_time_values [0, 100, 260, 300]
        [0x123, 0x123, 0x123, 0x123] 0x123) = [100, 160, 40]
    ∧ median [100, 160, 40] = 100
    ∧ analysis_outcome [0, 100, 260, 300] [0x123, 0x123, 0x123, 0x123] ∅
        default_threshold_percentage 0x123 = some (ClassificationOutcome.Flagged 1) := by
  refine ⟨?_, ?_, ?_, ?_, ?_, ?_⟩
  · norm_num [filtered_time_values, cycle_times]
  · norm_num [median, sortAsc, insertAsc]
  · norm_num [analysis_outcome, default_threshold_percentage, get_can_id,
      classify_id, filtered_time_values, cycle_times, median, sortAsc,
      insertAsc, List.countP, List.countP.go]
  · norm_num [filtered_time_values, cycle_times]
  · norm_num [median, sortAsc, insertAsc]
  · norm_num [analysis_outcome, default_threshold_percentage, get_can_id,
      classify_id, filtered_time_values, cycle_times, median, sortAsc,
      insertAsc, List.countP, List.countP.go]

/-- The per-identifier timestamp filter keeps one timestamp per occurrence of
the identifier, when the two capture lists are aligned. -/
theorem filtered_time_values_length (unique_id : Nat) :
    ∀ (id_values : List Nat) (time_values : List ℚ),
      id_values.length = time_values.length →
      (filtered_time_values time_values id_values unique_id).length
        = id_values.count unique_id := by
  intro id_values
  induction id_values with
  | nil =>
    intro tv _
    simp [filtered_time_values]
  | cons a rest ih =>
    intro tv hlen
    cases tv with
    | nil => simp at hlen
    | cons b tvrest =>
      simp only [List.length_cons, Nat.succ.injEq] at hlen
      have hrec := ih tvrest hlen
      simp only [filtered_time_values] at hrec ⊢
      by_cases hab : a == unique_id
      · simp [List.zip_cons_cons, List.filter_cons, hab, List.count_cons, hrec]
      · simp [List.zip_cons_cons, List.filter_cons, hab, List.count_cons, hrec]

/-- The cycle-time sequence has one element fewer than the timestamp
sequence. -/
theorem cycle_times_length (l : List ℚ) : (cycle_times l).length = l.length - 1 := by
  induction l with
  | nil => rfl
  | cons a rest ih =>
    cases rest with
    | nil => rfl
    | cons b rest2 =>
      simp only [cycle_times, List.length_cons] at ih ⊢
      omega

/-- `classify_id` yields no outcome exactly when the cycle-time sequence is
empty. -/
theorem classify_id_eq_none_iff (time_values : List ℚ) (id_values : List Nat)
    (p : ℚ) (id : Nat) :
    classify_id time_values id_values p id = none ↔
      (cycle_times (filtered_time_values time_values id_values id)).length = 0 := by
  simp only [classify_id]
  by_cases h : 0 < (cycle_times (filtered_time_values time_values id_values id)).length
  · rw [if_pos h]
    constructor
    · intro hsome
      split at hsome <;> simp at hsome
    · omega
  · rw [if_neg h]
    constructor
    · intro _
      omega
    · intro _
      rfl

/-- On an eligible identifier, `analysis_outcome` is `classify_id`. -/
theorem analysis_outcome_eligible (time_values : List ℚ) (id_values : List Nat)
    (pgn_values : Finset Nat) (p : ℚ) (id : Nat)
    (hrange : id < 0x800) (href : get_can_id id ∉ pgn_values) :
    analysis_outcome time_values id_values pgn_values p id
      = classify_id time_values id_values p id := by
  unfold analysis_outcome
  rw [if_pos ⟨hrange, Nat.zero_le id⟩, if_neg href]

/-- A `some` outcome implies the identifier passed the range check and the
reference-set exclusion. -/
theorem analysis_outcome_some_elim (time_values : List ℚ) (id_values : List Nat)
    (pgn_values : Finset Nat) (p : ℚ) (id : Nat) (o : ClassificationOutcome)
    (h : analysis_outcome time_values id_values pgn_values p id = some o) :
    id < 0x800 ∧ get_can_id id ∉ pgn_values
      ∧ classify_id time_values id_values p id = some o := by
  unfold analysis_outcome at h
  by_cases hr : 0x800 > id ∧ id ≥ 0
  · rw [if_pos hr] at h
    by_cases hm : get_can_id id ∈ pgn_values
    · rw [if_pos hm] at h
      exact absurd h (by simp)
    · rw [if_neg hm] at h
      exact ⟨hr.1, hm, h⟩
  · rw [if_neg hr] at h
    exact absurd h (by simp)

/-- C6: an eligible identifier occurring fewer than twice yields an empty
cycle-time sequence and contributes no classification outcome; conversely any
identifier with an outcome has a non-empty cycle-time sequence — the length
guard makes the threshold computation unreachable for empty sequences. -/
theorem few_occurrence_guard (time_values : List ℚ) (id_values : List Nat)
    (pgn_values : Finset Nat) (p : ℚ) (id : Nat)
    (hlen : id_values.length = time_values.length) :
    (List.count id id_values < 2 →
      cycle_times (filtered_time_values time_values id_values id) = []
      ∧ analysis_outcome time_values id_values pgn_values p id = none)
    ∧ (∀ o, analysis_outcome time_values id_values pgn_values p id = some o →
        0 < (cycle_times (filtered_time_values time_values id_values id)).length) := by
  have hflen := filtered_time_values_length id id_values time_values hlen
  have hclen := cycle_times_length (filtered_time_values time_values id_values id)
  constructor
  · intro hocc
    have hnil : cycle_times (filtered_time_values time_values id_values id) = [] := by
      have h0 : (cycle_times (filtered_time_values time_values id_values id)).length = 0 := by
        omega
      exact List.length_eq_zero.mp h0
    refine ⟨hnil, ?_⟩
    have hcl : classify_id time_values id_values p id = none :=
      (classify_id_eq_none_iff _ _ _ _).mpr (by omega)
    unfold analysis_outcome
    by_cases hr : 0x800 > id ∧ id ≥ 0
    · rw [if_pos hr]
      by_cases hm : get_can_id id ∈ pgn_values
      · rw [if_pos hm]
      · rw [if_neg hm]
        exact hcl
    · rw [if_neg hr]
  · intro o ho
    have h3 := (analysis_outcome_some_elim _ _ _ _ _ _ ho).2.2
    by_contra hn
    have hno : classify_id time_values id_values p id = none :=
      (classify_id_eq_none_iff _ _ _ _).mpr (by omega)
    rw [hno] at h3
    simp at h3

/-- Witness for C6: identifier `0x123` observed once. -/
theorem few_occurrence_guard_witness :
    ([0x123].length = ([0] : List ℚ).length)
    ∧ ((List.count 0x123 [0x123] < 2 →
          cycle_times (filtered_time_values [0] [0x123] 0x123) = []
          ∧ analysis_outcome [0] [0x123] ∅ 5 0x123 = none)
        ∧ (∀ o, analysis_outcome [0] [0x123] ∅ 5 0x123 = some o →
            0 < (cycle_times (filtered_time_values [0] [0x123] 0x123)).length)) :=
  ⟨rfl, few_occurrence_guard [0] [0x123] ∅ 5 0x123 rfl⟩

/-- C1: for an eligible identifier with at least two occurrences, the
threshold is `median(cycle_times) * (1 + p/100)`, the exceedance count is the
number of cycle times strictly above the threshold, and the outcome —
`Flagged(count)` when positive, `Clean` otherwise — is keyed by the masked
standard identifier `get_can_id id`. -/
theorem classification_rule (time_values : List ℚ) (id_values : List Nat)
    (pgn_values : Finset Nat) (p : ℚ) (id : Nat) (ct : List ℚ) (thr : ℚ) (cnt : Nat)
    (hlen : id_values.length = time_values.length)
    (hrange : id < 0x800)
    (href : get_can_id id ∉ pgn_values)
    (hocc : 2 ≤ List.count id id_values)
    (hct : ct = cycle_times (filtered_time_values time_values id_values id))
    (hthr : thr = median ct * (1 + p / 100))
    (hcnt : cnt = ct.countP (fun c => decide (c > thr))) :
    (0 < cnt →
      analysis_outcome time_values id_values pgn_values p id
          = some (ClassificationOutcome.Flagged cnt)
      ∧ get_can_id id ∈ categoryA_keys time_values id_values pgn_values p)
    ∧ (cnt = 0 →
      analysis_outcome time_values id_values pgn_values p id
          = some ClassificationOutcome.Clean
      ∧ get_can_id id ∈ categoryB_keys time_values id_values pgn_values p) := by
  have hflen := filtered_time_values_length id id_values time_values hlen
  have hclen := cycle_times_length (filtered_time_values time_values id_values id)
  have hpos : 0 < ct.length := by
    rw [hct]
    omega
  have hmem : id ∈ id_values := List.count_pos_iff.mp (by omega)
  have hout : analysis_outcome time_values id_values pgn_values p id
      = classify_id time_values id_values p id :=
    analysis_outcome_eligible _ _ _ _ _ hrange href
  have hclass : classify_id time_values id_values p id
      = if 0 < cnt then some (ClassificationOutcome.Flagged cnt)
        else some ClassificationOutcome.Clean := by
    simp only [classify_id, ← hct]
    rw [if_pos hpos, ← hthr, ← hcnt]
  constructor
  · intro hc
    have houtc : analysis_outcome time_values id_values pgn_values p id
        = some (ClassificationOutcome.Flagged cnt) := by
      rw [hout, hclass, if_pos hc]
    refine ⟨houtc, ?_⟩
    have hflag : id ∈ flagged_ids time_values id_values pgn_values p := by
      rw [flagged_ids, Finset.mem_filter]
      exact ⟨List.mem_toFinset.mpr hmem, by rw [houtc]; rfl⟩
    exact Finset.mem_image.mpr ⟨id, hflag, rfl⟩
  · intro hc
    have houtc : analysis_outcome time_values id_values pgn_values p id
        = some ClassificationOutcome.Clean := by
      rw [hout, hclass, if_neg (by omega)]
    refine ⟨houtc, ?_⟩
    have hcln : id ∈ clean_ids time_values id_values pgn_values p := by
      rw [clean_ids, Finset.mem_filter]
      exact ⟨List.mem_toFinset.mpr hmem, by rw [houtc]; rfl⟩
    exact Finset.mem_image.mpr ⟨id, hcln, rfl⟩

/-- Witness for C1 at the flagged concrete capture of §8. -/
theorem classification_rule_witness :
    ([0x123, 0x123, 0x123, 0x123].length = ([0, 100, 260, 300] : List ℚ).length)
    ∧ 0x123 < 0x800
    ∧ get_can_id 0x123 ∉ (∅ : Finset Nat)
    ∧ 2 ≤ List.count 0x123 [0x123, 0x123, 0x123, 0x123]
    ∧ ([100, 160, 40] : List ℚ)
        = cycle_times (filtered_time_values [0, 100, 260, 300]
            [0x123, 0x123, 0x123, 0x123] 0x123)
    ∧ (105 : ℚ) = median [100, 160, 40] * (1 + (5 : ℚ) / 100)
    ∧ 1 = List.countP (fun c => decide (c > (105 : ℚ))) [100, 160, 40]
    ∧ ((0 < 1 →
        analysis_outcome [0, 100, 260, 300] [0x123, 0x123, 0x123, 0x123] ∅ 5 0x123
            = some (ClassificationOutcome.Flagged 1)
        ∧ get_can_id 0x123 ∈ categoryA_keys [0, 100, 260, 300]
            [0x123, 0x123, 0x123, 0x123] ∅ 5)
      ∧ (1 = 0 →
        analysis_outcome [0, 100, 260, 300] [0x123, 0x123, 0x123, 0x123] ∅ 5 0x123
            = some ClassificationOutcome.Clean
        ∧ get_can_id 0x123 ∈ categoryB_keys [0, 100, 260, 300]
            [0x123, 0x123, 0x123, 0x123] ∅ 5)) :=
  ⟨rfl, by decide, by simp, by decide,
    by norm_num [filtered_time_values, cycle_times],
    by norm_num [median, sortAsc, insertAsc],
    by decide,
    classification_rule [0, 100, 260, 300] [0x123, 0x123, 0x123, 0x123] ∅ 5 0x123
      [100, 160, 40] 105 1 rfl (by decide) (by simp) (by decide)
      (by norm_num [filtered_time_values, cycle_times])
      (by norm_num [median, sortAsc, insertAsc])
      (by decide)⟩

/-- `isFlagged` characterisation. -/
theorem isFlagged_iff (x : Option ClassificationOutcome) :
    isFlagged x = true ↔ ∃ c, x = some (ClassificationOutcome.Flagged c) := by
  cases x with
  | none => simp [isFlagged]
  | some o =>
    cases o with
    | Flagged c => simp [isFlagged]
    | Clean => simp [isFlagged]

/-- `isClean` characterisation. -/
theorem isClean_iff (x : Option ClassificationOutcome) :
    isClean x = true ↔ x = some ClassificationOutcome.Clean := by
  cases x with
  | none => simp [isClean]
  | some o =>
    cases o with
    | Flagged c => simp [isClean]
    | Clean => simp [isClean]

/-- Membership in the flagged set. -/
theorem mem_flagged_ids_iff (time_values : List ℚ) (id_values : List Nat)
    (pgn_values : Finset Nat) (p : ℚ) (id : Nat) :
    id ∈ flagged_ids time_values id_values pgn_values p ↔
      id ∈ id_values ∧ ∃ c, analysis_outcome time_values id_values pgn_values p id
        = some (ClassificationOutcome.Flagged c) := by
  rw [flagged_ids, Finset.mem_filter, List.mem_toFinset, isFlagged_iff]

/-- Membership in the clean set. -/
theorem mem_clean_ids_iff (time_values : List ℚ) (id_values : List Nat)
    (pgn_values : Finset Nat) (p : ℚ) (id : Nat) :
    id ∈ clean_ids time_values id_values pgn_values p ↔
      id ∈ id_values ∧ analysis_outcome time_values id_values pgn_values p id
        = some ClassificationOutcome.Clean := by
  rw [clean_ids, Finset.mem_filter, List.mem_toFinset, isClean_iff]

/-- Every flagged identifier passed the range check. -/
theorem flagged_ids_lt (time_values : List ℚ) (id_values : List Nat)
    (pgn_values : Finset Nat) (p : ℚ) (id : Nat)
    (h : id ∈ flagged_ids time_values id_values pgn_values p) : id < 0x800 := by
  rcases (mem_flagged_ids_iff _ _ _ _ _).mp h with ⟨-, c, hc⟩
  exact (analysis_outcome_some_elim _ _ _ _ _ _ hc).1

/-- Every clean identifier passed the range check. -/
theorem clean_ids_lt (time_values : List ℚ) (id_values : List Nat)
    (pgn_values : Finset Nat) (p : ℚ) (id : Nat)
    (h : id ∈ clean_ids time_values id_values pgn_values p) : id < 0x800 := by
  rcases (mem_clean_ids_iff _ _ _ _ _).mp h with ⟨-, hc⟩
  exact (analysis_outcome_some_elim _ _ _ _ _ _ hc).1

/-- The written `category_A.txt` id set coincides with the flagged set: the
keying by `get_can_id` and the final range guard are both the identity
there. -/
theorem categoryA_file_eq (time_values : List ℚ) (id_values : List Nat)
    (pgn_values : Finset Nat) (p : ℚ) :
    categoryA_file time_values id_values pgn_values p
      = flagged_ids time_values id_values pgn_values p := by
  unfold categoryA_file categoryA_keys
  ext k
  simp only [Finset.mem_filter, Finset.mem_image]
  constructor
  · rintro ⟨⟨a, ha, rfl⟩, -⟩
    rwa [get_can_id_of_lt (flagged_ids_lt _ _ _ _ _ ha)]
  · intro hk
    have hlt := flagged_ids_lt _ _ _ _ _ hk
    exact ⟨⟨k, hk, get_can_id_of_lt hlt⟩, hlt, Nat.zero_le k⟩

/-- The written `category_B.txt` id set coincides with the clean set. -/
theorem categoryB_file_eq (time_values : List ℚ) (id_values : List Nat)
    (pgn_values : Finset Nat) (p : ℚ) :
    categoryB_file time_values id_values pgn_values p
      = clean_ids time_values id_values pgn_values p := by
  unfold categoryB_file categoryB_keys
  ext k
  simp only [Finset.mem_filter, Finset.mem_image]
  constructor
  · rintro ⟨⟨a, ha, rfl⟩, -⟩
    rwa [get_can_id_of_lt (clean_ids_lt _ _ _ _ _ ha)]
  · intro hk
    have hlt := clean_ids_lt _ _ _ _ _ hk
    exact ⟨⟨k, hk, get_can_id_of_lt hlt⟩, hlt, Nat.zero_le k⟩

/-- C2 counterexample: for a capture in which the eligible identifier `0x123`
occurs only once, both category files are empty while the eligible set is
`{0x123}`, so the union of the files is not the eligible-identifier set. -/
theorem categories_union_ne_eligible_ids :
    categoryA_file [0] [0x123] ∅ 5 ∪ categoryB_file [0] [0x123] ∅ 5
      ≠ eligible_ids [0x123] ∅ := by
  decide

/-- C2 (amended): the id sets of `category_A.txt` and `category_B.txt` are
disjoint, and their union is the eligible-identifier set restricted to
identifiers with at least two occurrences (single-occurrence eligible
identifiers are classified into neither category). -/
theorem categories_partition (time_values : List ℚ) (id_values : List Nat)
    (pgn_values : Finset Nat) (p : ℚ)
    (hlen : id_values.length = time_values.length) :
    Disjoint (categoryA_file time_values id_values pgn_values p)
      (categoryB_file time_values id_values pgn_values p)
    ∧ categoryA_file time_values id_values pgn_values p
        ∪ categoryB_file time_values id_values pgn_values p
      = (eligible_ids id_values pgn_values).filter
          (fun id => 2 ≤ List.count id id_values) := by
  rw [categoryA_file_eq, categoryB_file_eq]
  constructor
  · rw [Finset.disjoint_left]
    intro id hA hB
    rcases (mem_flagged_ids_iff _ _ _ _ _).mp hA with ⟨-, c, hc⟩
    have hcl := (mem_clean_ids_iff _ _ _ _ _).mp hB
    rw [hc] at hcl
    simp at hcl
  · ext id
    have hflen := filtered_time_values_length id id_values time_values hlen
    have hclen := cycle_times_length (filtered_time_values time_values id_values id)
    simp only [Finset.mem_union, mem_flagged_ids_iff, mem_clean_ids_iff,
      Finset.mem_filter, eligible_ids, List.mem_toFinset]
    constructor
    · intro h
      have hsome : id ∈ id_values ∧ ∃ o,
          analysis_outcome time_values id_values pgn_values p id = some o := by
        rcases h with ⟨hm, c, hc⟩ | ⟨hm, hc⟩
        · exact ⟨hm, _, hc⟩
        · exact ⟨hm, _, hc⟩
      rcases hsome with ⟨hm, o, ho⟩
      rcases analysis_outcome_some_elim _ _ _ _ _ _ ho with ⟨hr, hnm, hcl⟩
      have hne : classify_id time_values id_values p id ≠ none := by
        rw [hcl]
        simp
      have hctpos : (cycle_times (filtered_time_values time_values id_values id)).length ≠ 0 :=
        fun h0 => hne ((classify_id_eq_none_iff _ _ _ _).mpr h0)
      exact ⟨⟨hm, hr, Nat.zero_le id, hnm⟩, by omega⟩
    · rintro ⟨⟨hm, hr, -, hnm⟩, hocc⟩
      have hout : analysis_outcome time_values id_values pgn_values p id
          = classify_id time_values id_values p id :=
        analysis_outcome_eligible _ _ _ _ _ hr hnm
      have hne : classify_id time_values id_values p id ≠ none := by
        intro h0
        have := (classify_id_eq_none_iff _ _ _ _).mp h0
        omega
      rcases Option.ne_none_iff_exists'.mp hne with ⟨o, ho⟩
      rw [← hout] at ho
      cases o with
      | Flagged c => exact Or.inl ⟨hm, c, ho⟩
      | Clean => exact Or.inr ⟨hm, ho⟩

/-- Witness for the amended C2 at a small concrete capture. -/
theorem categories_partition_witness :
    ([0x123, 0x123] : List Nat).length = ([0, 100] : List ℚ).length
    ∧ (Disjoint (categoryA_file [0, 100] [0x123, 0x123] ∅ 5)
          (categoryB_file [0, 100] [0x123, 0x123] ∅ 5)
        ∧ categoryA_file [0, 100] [0x123, 0x123] ∅ 5
            ∪ categoryB_file [0, 100] [0x123, 0x123] ∅ 5
          = (eligible_ids [0x123, 0x123] ∅).filter
              (fun id => 2 ≤ List.count id [0x123, 0x123])) :=
  ⟨rfl, categories_partition [0, 100] [0x123, 0x123] ∅ 5 rfl⟩

/-- Inversion of a successful cell parse: the split fields at indices 1 and 5
are present and parse as the timestamp and the hex identifier. -/
theorem parse_cell_some_elim (value : String) (t : ℚ) (idn : Nat)
    (h : parse_cell value = some (t, idn)) :
    pyFloat? (((splitOnChar ';' value.toList).map List.asString).getD 1 "") = some t
    ∧ pyHexInt? (((splitOnChar ';' value.toList).map List.asString).getD 5 "") = some idn := by
  simp only [parse_cell] at h
  split at h
  · simp at h
  · rename_i tfield h1
    split at h
    · simp at h
    · rename_i tm h2
      split at h
      · simp at h
      · rename_i ifield h5
        split at h
        · simp at h
        · rename_i ih h6
          simp only [Option.some.injEq, Prod.mk.injEq] at h
          rw [List.getD_eq_getElem?_getD, h1, List.getD_eq_getElem?_getD, h5]
          simp only [Option.getD_some]
          rw [← h.1, ← h.2]
          exact ⟨h2, h6⟩

/-- C7: the capture loader scans exactly the rows at 1-indexed positions
`26 .. 25+num_rows`, in document order; qualifying rows are parsed by taking
fields 1 (timestamp) and 5 (hex identifier) of the `";"`-split first cell
text; and `num_rows = 0` yields the empty record sequence. -/
theorem capture_loader_window (rows : List Row) (num_rows : Nat) (i : Nat)
    (value : String) (t : ℚ) (idn : Nat)
    (hpc : parse_cell value = some (t, idn)) :
    parse_ods_file rows num_rows = process_rows ((rows.drop 25).take num_rows)
    ∧ ((rows.drop 25).take num_rows)[i]?
        = (if i < num_rows then rows[25 + i]? else none)
    ∧ parse_ods_file rows 0 = Except.ok ([], [])
    ∧ pyFloat? (((splitOnChar ';' value.toList).map List.asString).getD 1 "")
        = some t
    ∧ pyHexInt? (((splitOnChar ';' value.toList).map List.asString).getD 5 "")
        = some idn := by
  have hparse := parse_cell_some_elim value t idn hpc
  refine ⟨rfl, ?_, rfl, hparse.1, hparse.2⟩
  rw [List.getElem?_take, List.getElem?_drop]

/-- Witness for C7: a capture of 25 header rows and one data row. -/
theorem capture_loader_window_witness :
    parse_cell "a;100;b;c;d;1a" = some (100, 26)
    ∧ (parse_ods_file (List.replicate 25 (Row.mk []) ++ [Row.mk ["a;100;b;c;d;1a"]]) 1
        = process_rows (((List.replicate 25 (Row.mk []) ++ [Row.mk ["a;100;b;c;d;1a"]]).drop 25).take 1)
      ∧ (((List.replicate 25 (Row.mk []) ++ [Row.mk ["a;100;b;c;d;1a"]]).drop 25).take 1)[0]?
          = (if 0 < 1 then (List.replicate 25 (Row.mk []) ++ [Row.mk ["a;100;b;c;d;1a"]])[25 + 0]? else none)
      ∧ parse_ods_file (List.replicate 25 (Row.mk []) ++ [Row.mk ["a;100;b;c;d;1a"]]) 0
          = Except.ok ([], [])
      ∧ pyFloat? (((splitOnChar ';' ("a;100;b;c;d;1a").toList).map List.asString).getD 1 "")
          = some 100
      ∧ pyHexInt? (((splitOnChar ';' ("a;100;b;c;d;1a").toList).map List.asString).getD 5 "")
          = some 26) :=
  ⟨by decide,
    capture_loader_window (List.replicate 25 (Row.mk []) ++ [Row.mk ["a;100;b;c;d;1a"]])
      1 0 "a;100;b;c;d;1a" 100 26 (by decide)⟩

/-- A malformed present cell anywhere in the processed row list aborts the
scan with an error. -/
theorem process_rows_error_of_bad (rs : List Row)
    (hbad : ∃ r ∈ rs, ∃ v cs, r.cells = v :: cs ∧ parse_cell v = none) :
    ∃ e, process_rows rs = Except.error e := by
  induction rs with
  | nil => simp at hbad
  | cons r rest ih =>
    rcases hbad with ⟨r2, hr2mem, v, cs, hcells, hpc⟩
    rcases List.mem_cons.mp hr2mem with rfl | hmem
    · obtain ⟨cells⟩ := r2
      simp only at hcells
      subst hcells
      exact ⟨"FormatError", by simp [process_rows, hpc]⟩
    · obtain ⟨e, he⟩ := ih ⟨r2, hmem, v, cs, hcells, hpc⟩
      cases hc : r.cells with
      | nil =>
        obtain ⟨cells⟩ := r
        simp only at hc
        subst hc
        exact ⟨e, by simp [process_rows, he]⟩
      | cons v0 cs0 =>
        obtain ⟨cells⟩ := r
        simp only at hc
        subst hc
        cases hp0 : parse_cell v0 with
        | none => exact ⟨"FormatError", by simp [process_rows, hp0]⟩
        | some pr => exact ⟨e, by simp [process_rows, hp0, he]⟩

/-- C8: a row in the scanned window whose present first cell fails to parse
makes the whole load fail with a propagated error (no partial record
sequence), while rows with no extractable cell are skipped and contribute
nothing. -/
theorem malformed_cell_aborts (rows : List Row) (num_rows : Nat)
    (hbad : ∃ r ∈ (rows.drop 25).take num_rows,
      ∃ v cs, r.cells = v :: cs ∧ parse_cell v = none) :
    (∃ e, parse_ods_file rows num_rows = Except.error e)
    ∧ ∀ (r : Row) (rest : List Row), r.cells = [] →
        process_rows (r :: rest) = process_rows rest := by
  constructor
  · exact process_rows_error_of_bad _ hbad
  · intro r rest h
    obtain ⟨cells⟩ := r
    simp only at h
    subst h
    rfl

/-- Witness for C8: one data row whose cell has fewer than 6 fields. -/
theorem malformed_cell_aborts_witness :
    (∃ r ∈ ((List.replicate 25 (Row.mk []) ++ [Row.mk ["a;b"]]).drop 25).take 1,
      ∃ v cs, r.cells = v :: cs ∧ parse_cell v = none)
    ∧ ((∃ e, parse_ods_file (List.replicate 25 (Row.mk []) ++ [Row.mk ["a;b"]]) 1
          = Except.error e)
        ∧ ∀ (r : Row) (rest : List Row), r.cells = [] →
            process_rows (r :: rest) = process_rows rest) :=
  ⟨⟨Row.mk ["a;b"], by decide, "a;b", [], rfl, by decide⟩,
    malformed_cell_aborts (List.replicate 25 (Row.mk []) ++ [Row.mk ["a;b"]]) 1
      ⟨Row.mk ["a;b"], by decide, "a;b", [], rfl, by decide⟩⟩

/-- The two-list loop refines the paired record sequence: `process_rows`
returns exactly the componentwise projections of `records_spec`. -/
theorem process_rows_eq_records_spec (rs : List Row) :
    process_rows rs = (records_spec rs).map
      (fun recs => (recs.map Prod.fst, recs.map Prod.snd)) := by
  induction rs with
  | nil => rfl
  | cons r rest ih =>
    obtain ⟨cells⟩ := r
    cases cells with
    | nil =>
      simp only [process_rows, records_spec]
      exact ih
    | cons v cs =>
      cases hp : parse_cell v with
      | none => simp [process_rows, records_spec, hp, Except.map]
      | some pr =>
        cases hr : records_spec rest with
        | error e =>
          rw [hr] at ih
          simp [process_rows, records_spec, hp, hr, ih, Except.map]
        | ok recs =>
          rw [hr] at ih
          simp [process_rows, records_spec, hp, hr, ih, Except.map]

/-- C10: a successful load returns two sequences of equal length, aligned
index-by-index: they are the two projections of one per-qualifying-row
record sequence, in document row order. -/
theorem capture_loader_alignment (rows : List Row) (num_rows : Nat)
    (time_values : List ℚ) (id_values : List Nat)
    (h : parse_ods_file rows num_rows = Except.ok (time_values, id_values)) :
    time_values.length = id_values.length
    ∧ ∃ recs : List (ℚ × Nat),
        records_spec ((rows.drop 25).take num_rows) = Except.ok recs
        ∧ time_values = recs.map Prod.fst
        ∧ id_values = recs.map Prod.snd := by
  rw [parse_ods_file, process_rows_eq_records_spec] at h
  cases hr : records_spec ((rows.drop 25).take num_rows) with
  | error e =>
    rw [hr] at h
    simp [Except.map] at h
  | ok recs =>
    rw [hr] at h
    simp only [Except.map, Except.ok.injEq, Prod.mk.injEq] at h
    refine ⟨?_, recs, rfl, h.1.symm, h.2.symm⟩
    rw [h.1.symm, h.2.symm]
    simp

/-- Witness for C10: two data rows after the 25 header rows. -/
theorem capture_loader_alignment_witness :
    parse_ods_file (List.replicate 25 (Row.mk [])
        ++ [Row.mk ["a;1;b;c;d;2"], Row.mk [], Row.mk ["x;3;y;z;w;4"]]) 3
      = Except.ok ([1, 3], [2, 4])
    ∧ (([1, 3] : List ℚ).length = ([2, 4] : List Nat).length
      ∧ ∃ recs : List (ℚ × Nat),
          records_spec (((List.replicate 25 (Row.mk [])
              ++ [Row.mk ["a;1;b;c;d;2"], Row.mk [], Row.mk ["x;3;y;z;w;4"]]).drop 25).take 3)
            = Except.ok recs
          ∧ ([1, 3] : List ℚ) = recs.map Prod.fst
          ∧ ([2, 4] : List Nat) = recs.map Prod.snd) :=
  ⟨by decide,
    capture_loader_alignment
      (List.replicate 25 (Row.mk [])
        ++ [Row.mk ["a;1;b;c;d;2"], Row.mk [], Row.mk ["x;3;y;z;w;4"]]) 3
      [1, 3] [2, 4] (by decide)⟩
